import Mathlib

set_option autoImplicit false

/-
Verification development for the maven-artifacts-mcp repository.

Shallow embedding of the core components:
  - CacheManager  (src/cache/cache-manager.ts): a TTL cache modelled as a
    partial map from keys to entries, with explicit wall-clock instants
    (epoch milliseconds as Nat) passed in place of Date.now().
  - MavenResolver (src/tools/maven-resolver.ts): validation, stability
    classification, version comparison, and the resolution pipeline.
    Network responses are passed in as explicit Except-valued oracles
    (the value the awaited HTTP call would produce, or the error it
    would throw).
  - HttpClient    (src/http/http-client.ts): the retry loop of
    HttpClient.request and the error classifier createHttpError.
    Attempt outcomes are passed in as an oracle indexed by attempt
    number; the trace records the backoff delays and attempt count.

JavaScript runtime details that the source relies on are made explicit:
  - falsy checks on strings and numbers (empty string / 0) are modelled
    by explicit emptiness / zero tests;
  - thrown Error values are modelled by the JsError structure, whose
    optional fields mirror the properties the source inspects
    (error.code, error.response, error.request, error.statusCode,
    error.message, and the String(error) rendering);
  - Array.prototype.sort with a comparator is modelled by the stable
    List.insertionSort (ES2019 requires sort to be stable);
  - the Set-based de-duplication keeps the first occurrence, in
    insertion order, as JS Set iteration does.
-/

/-! ## Data model (src/types/maven.ts) -/

/-- VersionInfo from src/types/maven.ts.  Optional fields model the
optional TS properties. -/
structure VersionInfo where
  latestVersion : String
  lastUpdated : String
  repository : String
  excludedVersions : Option (List String) := none
  totalVersions : Option Nat := none
deriving DecidableEq

/-- CacheEntry from src/types/maven.ts. -/
structure CacheEntry where
  data : VersionInfo
  timestamp : Nat
  expiresAt : Nat
deriving DecidableEq

/-- LatestVersionResponse from src/types/maven.ts: a VersionInfo plus
the cached flag. -/
structure LatestVersionResponse where
  latestVersion : String
  lastUpdated : String
  repository : String
  cached : Bool
  excludedVersions : Option (List String) := none
  totalVersions : Option Nat := none
deriving DecidableEq

/-- The status information an axios-style error carries in
error.response (inspected by queryMavenApi's catch block). -/
structure StatusInfo where
  status : Nat
  statusText : String
deriving DecidableEq

/-- A thrown JavaScript error value, restricted to the properties this
program inspects.  asString models the String(error) rendering. -/
structure JsError where
  code : Option String := none
  statusCode : Option Nat := none
  response : Option StatusInfo := none
  request : Bool := false
  message : Option String := none
  asString : String := ""
deriving DecidableEq

/-- An Error constructed by this program itself via new Error(msg):
only its message is populated. -/
def plainJsError (msg : String) : JsError :=
  { message := some msg, asString := msg }

/-- One document of the primary Maven search response.  latestVersion
is optional because the code guards against it being absent or falsy. -/
structure MavenDoc where
  latestVersion : Option String
  timestamp : Nat
deriving DecidableEq

/-- The docs array of the primary response (optional, as the code
checks data.response.docs for presence). -/
structure MavenBody where
  docs : Option (List MavenDoc)
deriving DecidableEq

/-- The JSON body of the primary Maven search response; response is
optional because the code checks data.response for presence. -/
structure MavenData where
  response : Option MavenBody
deriving DecidableEq

/-- One document of the version-history (gav core) response; carries a
bare version string field v. -/
structure GavDoc where
  v : Option String
deriving DecidableEq

/-- The docs array of the version-history response. -/
structure GavBody where
  docs : Option (List GavDoc)
deriving DecidableEq

/-- The JSON body of the version-history response. -/
structure GavData where
  response : Option GavBody
deriving DecidableEq

/-! ## JavaScript string helpers -/

/-- JS String.prototype.trim on the underlying character list:
whitespace removed from both ends. -/
def jsTrim (s : String) : String :=
  String.mk (((s.toList.dropWhile Char.isWhitespace).reverse.dropWhile
    Char.isWhitespace).reverse)

/-- Does the candidate token occur at the head of the character list?
(Used to model a regex alternative matching at one position.) -/
def listStarts : List Char → List Char → Bool
  | [], _ => true
  | _ :: _, [] => false
  | t :: ts, c :: cs => (t = c) && listStarts ts cs

/-- Scan every position of the haystack for an occurrence of the
needle (the semantics of an unanchored regex literal / substring
search). -/
def containsSeq (needle : List Char) : List Char → Bool
  | [] => listStarts needle []
  | c :: cs => listStarts needle (c :: cs) || containsSeq needle cs

/-! ## Date#toISOString (used for lastUpdated) -/

/-- Two-digit zero padding. -/
def pad2 (n : Nat) : String := if n < 10 then "0" ++ toString n else toString n

/-- Three-digit zero padding (milliseconds). -/
def pad3 (n : Nat) : String :=
  if n < 10 then "00" ++ toString n
  else if n < 100 then "0" ++ toString n
  else toString n

/-- Gregorian leap-year test. -/
def isLeapYear (y : Nat) : Bool := (y % 4 == 0 && y % 100 != 0) || y % 400 == 0

/-- Number of days in the given year. -/
def daysInYear (y : Nat) : Nat := if isLeapYear y then 366 else 365

/-- Walk forward from 1970 converting a day count into (year, day of
year); the first argument is recursion fuel. -/
def yearAndDay : Nat → Nat → Nat → Nat × Nat
  | 0, y, d => (y, d)
  | fuel + 1, y, d =>
    if d < daysInYear y then (y, d) else yearAndDay fuel (y + 1) (d - daysInYear y)

/-- Month lengths of the given year. -/
def monthLengths (y : Nat) : List Nat :=
  [31, if isLeapYear y then 29 else 28, 31, 30, 31, 30, 31, 31, 30, 31, 30, 31]

/-- Convert a day-of-year into (month, day-of-month index). -/
def monthAndDay : List Nat → Nat → Nat → Nat × Nat
  | [], m, d => (m, d)
  | len :: rest, m, d =>
    if d < len then (m, d) else monthAndDay rest (m + 1) (d - len)

/-- new Date(ms).toISOString() for a non-negative epoch-millisecond
timestamp: YYYY-MM-DDTHH:MM:SS.mmmZ in UTC. -/
def jsToISOString (ms : Nat) : String :=
  let msPart := ms % 1000
  let totalSeconds := ms / 1000
  let s := totalSeconds % 60
  let totalMinutes := totalSeconds / 60
  let mi := totalMinutes % 60
  let totalHours := totalMinutes / 60
  let h := totalHours % 24
  let days := totalHours / 24
  let yd := yearAndDay 10000 1970 days
  let md := monthAndDay (monthLengths yd.1) 1 yd.2
  toString yd.1 ++ "-" ++ pad2 md.1 ++ "-" ++ pad2 (md.2 + 1) ++ "T" ++
    pad2 h ++ ":" ++ pad2 mi ++ ":" ++ pad2 s ++ "." ++ pad3 msPart ++ "Z"

/-! ## CacheManager (src/cache/cache-manager.ts)

The JS Map is modelled as a partial map from keys to entries; every
operation that reads Date.now() takes the current instant explicitly. -/

/-- The cache's internal map. -/
def CacheMap : Type := String → Option CacheEntry

/-- The everywhere-empty cache map (a freshly constructed Map). -/
def emptyCacheMap : CacheMap := fun _ => none

namespace CacheManager

/-- generateCacheKey: literal concatenation groupId + ":" + artifactId. -/
def generateCacheKey (groupId artifactId : String) : String :=
  groupId ++ ":" ++ artifactId

/-- isExpired: Date.now() > entry.expiresAt (strict). -/
def isExpired (entry : CacheEntry) (now : Nat) : Bool := now > entry.expiresAt

/-- get: miss on absence; on a present but expired entry, delete it and
miss (lazy expiration); otherwise hit.  Returns the result together
with the possibly-updated map. -/
def get (cache : CacheMap) (groupId artifactId : String) (now : Nat) :
    Option VersionInfo × CacheMap :=
  let key := generateCacheKey groupId artifactId
  match cache key with
  | none => (none, cache)
  | some entry =>
    if isExpired entry now then
      (none, fun k => if k = key then none else cache k)
    else
      (some entry.data, cache)

/-- set: store an entry with expiresAt = now + ttlMinutes * 60 * 1000,
overwriting any previous entry for the key. -/
def set (cache : CacheMap) (ttlMinutes : Nat) (groupId artifactId : String)
    (data : VersionInfo) (now : Nat) : CacheMap :=
  let key := generateCacheKey groupId artifactId
  let entry : CacheEntry :=
    { data := data, timestamp := now, expiresAt := now + ttlMinutes * 60 * 1000 }
  fun k => if k = key then some entry else cache k

/-- cleanupExpiredEntries: the periodic sweep; removes every entry with
now > expiresAt. -/
def cleanupExpiredEntries (cache : CacheMap) (now : Nat) : CacheMap :=
  fun k =>
    match cache k with
    | some entry => if now > entry.expiresAt then none else some entry
    | none => none

end CacheManager

/-! ## MavenResolver (src/tools/maven-resolver.ts) -/

namespace MavenResolver

/-- One character of the coordinate character class [a-zA-Z0-9._-]. -/
def validCoordChar (c : Char) : Bool :=
  c.isAlphanum || c = '.' || c = '_' || c = '-'

/-- validateInput: reject empty / all-whitespace components, then
reject components not fully matching [a-zA-Z0-9._-]+ (the anchored
regex requires a non-empty all-valid string). -/
def validateInput (groupId artifactId : String) : Except JsError Unit :=
  if groupId = "" ∨ jsTrim groupId = "" then
    .error (plainJsError "groupId is required and must be a non-empty string")
  else if artifactId = "" ∨ jsTrim artifactId = "" then
    .error (plainJsError "artifactId is required and must be a non-empty string")
  else if ¬ (groupId.toList ≠ [] ∧ groupId.toList.all validCoordChar = true) then
    .error (plainJsError "groupId contains invalid characters")
  else if ¬ (artifactId.toList ≠ [] ∧ artifactId.toList.all validCoordChar = true) then
    .error (plainJsError "artifactId contains invalid characters")
  else
    .ok ()

/-- Does the milestone alternative (the letter m followed by at least
one digit) match at the head of the character list? -/
def milestoneAt : List Char → Bool
  | c :: d :: _ => c = 'm' && d.isDigit
  | _ => false

/-- Does one of the unstable alternatives of the regex
(preview|rc|alpha|beta|snapshot|m digits) match at the head of the
(already lower-cased) character list? -/
def unstableAt (cs : List Char) : Bool :=
  listStarts "preview".toList cs || listStarts "rc".toList cs ||
  listStarts "alpha".toList cs || listStarts "beta".toList cs ||
  listStarts "snapshot".toList cs || milestoneAt cs

/-- Unanchored scan of the regex over the whole character list. -/
def scanUnstable : List Char → Bool
  | [] => false
  | c :: cs => unstableAt (c :: cs) || scanUnstable cs

/-- isStableVersion: the version is stable iff the case-insensitive
regex (preview|rc|alpha|beta|snapshot|m digits) finds no match
anywhere in the string.  Case-insensitivity is modelled by
lower-casing the subject (the pattern itself is lower-case). -/
def isStableVersion (version : String) : Bool :=
  !(scanUnstable (version.toList.map Char.toLower))

/-- parseInt(part.replace(non-digits, removed), 10): strip the
non-digit characters and read the remainder as a decimal number; an
empty remainder is NaN, which the caller maps to 0 (and the empty fold
also yields 0). -/
def parseSegment (part : List Char) : Nat :=
  (part.filter Char.isDigit).foldl (fun acc c => acc * 10 + (c.toNat - 48)) 0

/-- version.split on the dot character, keeping empty pieces, as JS
String.prototype.split does. -/
def splitDot : List Char → List (List Char)
  | [] => [[]]
  | c :: cs =>
    if c = '.' then [] :: splitDot cs
    else
      match splitDot cs with
      | [] => [[c]]
      | seg :: segs => (c :: seg) :: segs

/-- parseVersion: split on dots and parse each segment. -/
def parseVersion (version : String) : List Nat :=
  (splitDot version.toList).map parseSegment

/-- The tail of the comparison loop once the first segment list is
exhausted: each remaining b is compared against the 0 padding. -/
def cmpNilLoop : List Nat → Int
  | [] => 0
  | b :: bs => if b ≠ 0 then -(b : Int) else cmpNilLoop bs

/-- The comparison loop: walk both segment lists up to the longer
length, treating a missing trailing segment as 0; at the first unequal
pair return the difference aPart - bPart; otherwise 0. -/
def cmpLoop : List Nat → List Nat → Int
  | [], bs => cmpNilLoop bs
  | a :: as, [] => if a ≠ 0 then (a : Int) else cmpLoop as []
  | a :: as, b :: bs => if a ≠ b then (a : Int) - (b : Int) else cmpLoop as bs

/-- compareVersions: numeric segment-wise comparison; the sign carries
the ordering (the raw segment difference is returned, not a clamped
-1/0/1). -/
def compareVersions (a b : String) : Int :=
  cmpLoop (parseVersion a) (parseVersion b)

/-- The ordering relation induced by the sort comparator
(a, b) => compareVersions(b, a): v may precede w in the descending
sort exactly when compareVersions w v is non-positive. -/
def versionGE (v w : String) : Prop := compareVersions w v ≤ 0

instance : DecidableRel versionGE := fun v w =>
  inferInstanceAs (Decidable (compareVersions w v ≤ 0))

/-- The Set-based de-duplication: keep the first occurrence of each
element, preserving insertion order (the seen accumulator holds the
elements already emitted). -/
def jsSetDedupGo (seen : List String) : List String → List String
  | [] => []
  | x :: xs =>
    if x ∈ seen then jsSetDedupGo seen xs
    else x :: jsSetDedupGo (x :: seen) xs

/-- Spread of new Set(l) into an array. -/
def jsSetDedup (l : List String) : List String := jsSetDedupGo [] l

/-- getAllVersions: the best-effort version-history query.  Any failure
of the underlying request is caught, logged, and turned into the empty
list; on success the v fields of the docs are collected (skipping
absent or falsy-empty ones). -/
def getAllVersions (history : Except JsError GavData) : List String :=
  match history with
  | .error _ => []
  | .ok data =>
    match data.response with
    | none => []
    | some body =>
      match body.docs with
      | none => []
      | some docs =>
        docs.filterMap fun doc =>
          match doc.v with
          | some s => if s ≠ "" then some s else none
          | none => none

/-- The try-block body of queryMavenApi.  primary is the outcome of
the awaited primary search request; history the outcome of the awaited
version-history request (consulted only on the pre-release path).  The
Bool records whether the version-history query was issued. -/
def queryBody (groupId artifactId : String) (primary : Except JsError MavenData)
    (history : Except JsError GavData) : Except JsError VersionInfo × Bool :=
  match primary with
  | .error e => (.error e, false)
  | .ok data =>
    match data.response with
    | none =>
      (.error (plainJsError ("No artifacts found for " ++ groupId ++ ":" ++ artifactId)), false)
    | some body =>
      match body.docs with
      | none =>
        (.error (plainJsError ("No artifacts found for " ++ groupId ++ ":" ++ artifactId)), false)
      | some docs =>
        match docs with
        | [] =>
          (.error (plainJsError ("No artifacts found for " ++ groupId ++ ":" ++ artifactId)), false)
        | artifact :: _ =>
          match artifact.latestVersion with
          | none =>
            (.error (plainJsError ("No version information available for " ++ groupId ++ ":" ++ artifactId)), false)
          | some latestVersion =>
            if latestVersion = "" then
              (.error (plainJsError ("No version information available for " ++ groupId ++ ":" ++ artifactId)), false)
            else if isStableVersion latestVersion then
              (.ok { latestVersion := latestVersion,
                     lastUpdated := jsToISOString artifact.timestamp,
                     repository := "Maven Central" }, false)
            else
              let allVersions := getAllVersions history
              let stableVersions := allVersions.filter (fun v => isStableVersion v)
              if stableVersions.length = 0 then
                (.error (plainJsError ("No stable versions found for " ++ groupId ++ ":" ++
                  artifactId ++ " (latest version " ++ latestVersion ++ " is pre-release)")), true)
              else
                let sorted := List.insertionSort versionGE stableVersions
                let finalVersion := sorted.headD ""
                let unstableVersions := allVersions.filter (fun v => !(isStableVersion v))
                let excludedVersions := latestVersion :: unstableVersions
                (.ok { latestVersion := finalVersion,
                       lastUpdated := jsToISOString artifact.timestamp,
                       repository := "Maven Central",
                       excludedVersions := some ((jsSetDedup excludedVersions).take 10),
                       totalVersions := some (excludedVersions.length + 1) }, true)

/-- The catch block of queryMavenApi: translate an axios-style timeout,
HTTP-status or network error into a new plain Error; rethrow anything
else unchanged. -/
def catchTranslate (groupId artifactId : String) (e : JsError) : JsError :=
  if e.code = some "ECONNABORTED" then
    plainJsError ("Maven API timeout for " ++ groupId ++ ":" ++ artifactId)
  else
    match e.response with
    | some r =>
      plainJsError ("Maven API error: " ++ toString r.status ++ " " ++ r.statusText)
    | none =>
      if e.request then
        plainJsError ("Maven API network error for " ++ groupId ++ ":" ++ artifactId)
      else e

/-- queryMavenApi: the try-body with its catch-translation applied to
any error it raises. -/
def queryMavenApi (groupId artifactId : String) (primary : Except JsError MavenData)
    (history : Except JsError GavData) : Except JsError VersionInfo × Bool :=
  match queryBody groupId artifactId primary history with
  | (.ok vi, hist) => (.ok vi, hist)
  | (.error e, hist) => (.error (catchTranslate groupId artifactId e), hist)

/-- Spread a VersionInfo into a LatestVersionResponse with the cached
annotation. -/
def toResponse (vi : VersionInfo) (cached : Bool) : LatestVersionResponse :=
  { latestVersion := vi.latestVersion, lastUpdated := vi.lastUpdated,
    repository := vi.repository, cached := cached,
    excludedVersions := vi.excludedVersions, totalVersions := vi.totalVersions }

/-- The observable outcome of one getLatestVersion call: the returned
or thrown value, the cache map afterwards, and which collaborators
were touched. -/
structure ResolveTrace where
  result : Except JsError LatestVersionResponse
  cacheAfter : CacheMap
  cacheRead : Bool
  primaryIssued : Bool
  historyIssued : Bool

/-- getLatestVersion: validate, consult the cache, on a miss run
queryMavenApi and populate the cache with the fresh record.  The final
catch block only logs and rethrows, so errors pass through unchanged. -/
def getLatestVersion (groupId artifactId : String) (cache : CacheMap)
    (ttlMinutes now : Nat) (primary : Except JsError MavenData)
    (history : Except JsError GavData) : ResolveTrace :=
  match validateInput groupId artifactId with
  | .error e =>
    { result := .error e, cacheAfter := cache, cacheRead := false,
      primaryIssued := false, historyIssued := false }
  | .ok _ =>
    match CacheManager.get cache groupId artifactId now with
    | (some vi, cache1) =>
      { result := .ok (toResponse vi true), cacheAfter := cache1,
        cacheRead := true, primaryIssued := false, historyIssued := false }
    | (none, cache1) =>
      match queryMavenApi groupId artifactId primary history with
      | (.ok vi, hist) =>
        { result := .ok (toResponse vi false),
          cacheAfter := CacheManager.set cache1 ttlMinutes groupId artifactId vi now,
          cacheRead := true, primaryIssued := true, historyIssued := hist }
      | (.error e, hist) =>
        { result := .error e, cacheAfter := cache1, cacheRead := true,
          primaryIssued := true, historyIssued := hist }

end MavenResolver

/-! ## HttpClient (src/http/http-client.ts) -/

namespace HttpClient

/-- The fixed retry budget: 2 extra attempts beyond the first. -/
def maxRetries : Nat := 2

/-- The backoff before the next attempt once retryCount failures have
occurred: min(1000 * 2 ^ (retryCount - 1), 5000) milliseconds. -/
def backoffDelay (retryCount : Nat) : Nat := min (1000 * 2 ^ (retryCount - 1)) 5000

/-- The JS idiom error.message || fallback: the message unless it is
absent or falsy-empty. -/
def jsMessageOr (error : JsError) (fallback : String) : String :=
  match error.message with
  | some m => if m ≠ "" then m else fallback
  | none => fallback

/-- createHttpError: classify the final error into a descriptive
message (timeouts, DNS failure, connection refused / reset, HTTP
status, other).  Mirrors the if-chain of the source, including the
falsy checks on statusCode and message. -/
def createHttpError (error : JsError) (url method : String) : String :=
  if error.code = some "UND_ERR_CONNECT_TIMEOUT" then
    "Connection timeout for " ++ method ++ " " ++ url
  else if error.code = some "UND_ERR_HEADERS_TIMEOUT" then
    "Headers timeout for " ++ method ++ " " ++ url
  else if error.code = some "UND_ERR_BODY_TIMEOUT" then
    "Body timeout for " ++ method ++ " " ++ url
  else if error.code = some "ENOTFOUND" then
    "DNS resolution failed for " ++ url
  else if error.code = some "ECONNREFUSED" then
    "Connection refused for " ++ url
  else if error.code = some "ECONNRESET" then
    "Connection reset for " ++ url
  else
    match error.statusCode with
    | some sc =>
      if sc ≠ 0 then
        "HTTP " ++ toString sc ++ " for " ++ method ++ " " ++ url ++ ": " ++
          jsMessageOr error "Unknown error"
      else
        "HTTP request failed for " ++ method ++ " " ++ url ++ ": " ++
          jsMessageOr error error.asString
    | none =>
      "HTTP request failed for " ++ method ++ " " ++ url ++ ": " ++
        jsMessageOr error error.asString

/-- The observable outcome of one request call: the returned payload
or thrown (already classified) error message, the backoff delays slept
between attempts, and the number of attempts performed. -/
structure RequestTrace (α : Type) where
  result : Except String α
  delays : List Nat
  attempts : Nat

/-- The while loop of request.  outcomes gives the result of the
attempt performed at each retryCount value; the fuel argument bounds
the loop as the source's retryCount <= maxRetries condition does. -/
def requestGo {α : Type} (outcomes : Nat → Except JsError α) (url method : String) :
    Nat → Nat → RequestTrace α
  | _, 0 => { result := .error "Unexpected end of retry loop", delays := [], attempts := 0 }
  | retryCount, fuel + 1 =>
    match outcomes retryCount with
    | .ok r => { result := .ok r, delays := [], attempts := 1 }
    | .error e =>
      if retryCount + 1 > maxRetries then
        { result := .error (createHttpError e url method), delays := [], attempts := 1 }
      else
        let t := requestGo outcomes url method (retryCount + 1) fuel
        { result := t.result, delays := backoffDelay (retryCount + 1) :: t.delays,
          attempts := t.attempts + 1 }

/-- request: run the retry loop from retryCount = 0; the loop performs
at most maxRetries + 1 attempts. -/
def request {α : Type} (outcomes : Nat → Except JsError α) (url method : String) :
    RequestTrace α :=
  requestGo outcomes url method 0 (maxRetries + 1)

end HttpClient

/-! ## Concrete inputs used by the end-to-end claims -/

/-- Build a primary response holding a single document. -/
def singleDocData (lv : String) (ts : Nat) : MavenData :=
  { response := some { docs := some [{ latestVersion := some lv, timestamp := ts }] } }

/-- Build a history response from a list of bare version strings. -/
def historyData (vs : List String) : GavData :=
  { response := some { docs := some (vs.map fun s => { v := some s }) } }

/-- Scenario A primary response: latest version 6.0.0 (stable). -/
def primaryStable : Except JsError MavenData :=
  .ok (singleDocData "6.0.0" 1699267845000)

/-- Scenario B primary response: latest version 2.0.0-RC1 (pre-release). -/
def primaryRC : Except JsError MavenData :=
  .ok (singleDocData "2.0.0-RC1" 1699267845000)

/-- Scenario B history response: the four known versions in discovery
order. -/
def historyB : Except JsError GavData :=
  .ok (historyData ["2.0.0-RC1", "1.9.0", "1.8.0-beta1", "1.7.0"])

/-- A failing history response (connection reset mid-transfer). -/
def historyFail : Except JsError GavData :=
  .error { code := some "ECONNRESET", asString := "Error: socket hang up" }

/-- The thrown error of a failing DNS lookup. -/
def dnsError : JsError :=
  { code := some "ENOTFOUND", asString := "Error: getaddrinfo ENOTFOUND x" }

/-- An attempt oracle that fails every attempt with a DNS resolution
error. -/
def dnsOutcomes : Nat → Except JsError Unit := fun _ => .error dnsError

/-! ## Spec-side predicates (formalizations of the spec's wording, for
comparison with the code-derived definitions) -/

/-- Spec wording of an unstable token: one of the five literal tokens,
or a milestone written as the letter m followed by one or more digits. -/
def UnstableTokSpec (tok : List Char) : Prop :=
  tok = "preview".toList ∨ tok = "rc".toList ∨ tok = "alpha".toList ∨
  tok = "beta".toList ∨ tok = "snapshot".toList ∨
  ∃ ds, tok = 'm' :: ds ∧ ds ≠ [] ∧ ds.all Char.isDigit = true

/-- Substring-containment wording of an unstable token: one of the
five literal tokens, or the letter m immediately followed by a single
digit. -/
def UnstableTokSub (tok : List Char) : Prop :=
  tok = "preview".toList ∨ tok = "rc".toList ∨ tok = "alpha".toList ∨
  tok = "beta".toList ∨ tok = "snapshot".toList ∨
  ∃ d, tok = ['m', d] ∧ d.isDigit = true

/-- The character list contains, somewhere, a token of the spec's
unstable-token family. -/
def UnstableOccurSpec (cs : List Char) : Prop :=
  ∃ pre tok post, cs = pre ++ tok ++ post ∧ UnstableTokSpec tok

/-- The character list contains, somewhere, an unstable token in the
substring-containment reading. -/
def UnstableOccurSub (cs : List Char) : Prop :=
  ∃ pre tok post, cs = pre ++ tok ++ post ∧ UnstableTokSub tok

/-! ## Helper lemmas -/

theorem listStarts_iff (t cs : List Char) :
    listStarts t cs = true ↔ ∃ rest, cs = t ++ rest := by
  induction t generalizing cs with
  | nil => simp [listStarts]
  | cons x xs ih =>
    cases cs with
    | nil => simp [listStarts]
    | cons c cs' =>
      simp only [listStarts, Bool.and_eq_true, decide_eq_true_eq, ih,
        List.cons_append, List.cons.injEq]
      constructor
      · rintro ⟨hx, rest, hr⟩
        exact ⟨rest, hx.symm, hr⟩
      · rintro ⟨rest, hc, hr⟩
        exact ⟨hc.symm, rest, hr⟩

theorem containsSeq_iff (needle hay : List Char) :
    containsSeq needle hay = true ↔ ∃ pre post, hay = pre ++ needle ++ post := by
  induction hay with
  | nil =>
    simp only [containsSeq, listStarts_iff]
    constructor
    · rintro ⟨rest, h⟩
      exact ⟨[], rest, by simpa using h⟩
    · rintro ⟨pre, post, h⟩
      have h' := h.symm
      simp only [List.append_eq_nil] at h'
      exact ⟨[], by simp [h'.1.2]⟩
  | cons c cs ih =>
    simp only [containsSeq, Bool.or_eq_true, listStarts_iff, ih]
    constructor
    · rintro (⟨rest, h⟩ | ⟨pre, post, h⟩)
      · exact ⟨[], rest, by simpa using h⟩
      · exact ⟨c :: pre, post, by simp [h]⟩
    · rintro ⟨pre, post, h⟩
      cases pre with
      | nil => exact Or.inl ⟨post, by simpa using h⟩
      | cons c' pre' =>
        simp only [List.cons_append, List.cons.injEq] at h
        exact Or.inr ⟨pre', post, h.2⟩

theorem milestoneAt_iff (cs : List Char) :
    MavenResolver.milestoneAt cs = true ↔
      ∃ d rest, cs = 'm' :: d :: rest ∧ d.isDigit = true := by
  rcases cs with _ | ⟨c, _ | ⟨d, rest⟩⟩
  · simp [MavenResolver.milestoneAt]
  · simp [MavenResolver.milestoneAt]
  · simp only [MavenResolver.milestoneAt, Bool.and_eq_true, decide_eq_true_eq,
      List.cons.injEq]
    constructor
    · rintro ⟨hc, hd⟩
      exact ⟨d, rest, ⟨hc, rfl, rfl⟩, hd⟩
    · rintro ⟨d', rest', ⟨hc, hd, hr⟩, hdig⟩
      exact ⟨hc, hd ▸ hdig⟩

theorem unstableTokSub_ne_nil {tok : List Char} (h : UnstableTokSub tok) : tok ≠ [] := by
  rcases h with h | h | h | h | h | ⟨d, h, _⟩ <;> subst h <;> simp

theorem unstableAt_iff (cs : List Char) :
    MavenResolver.unstableAt cs = true ↔
      ∃ tok rest, cs = tok ++ rest ∧ UnstableTokSub tok := by
  simp only [MavenResolver.unstableAt, Bool.or_eq_true, listStarts_iff, milestoneAt_iff]
  constructor
  · rintro (((((⟨r, h⟩ | ⟨r, h⟩) | ⟨r, h⟩) | ⟨r, h⟩) | ⟨r, h⟩) | ⟨d, r, h, hd⟩)
    · exact ⟨_, r, h, Or.inl rfl⟩
    · exact ⟨_, r, h, Or.inr (Or.inl rfl)⟩
    · exact ⟨_, r, h, Or.inr (Or.inr (Or.inl rfl))⟩
    · exact ⟨_, r, h, Or.inr (Or.inr (Or.inr (Or.inl rfl)))⟩
    · exact ⟨_, r, h, Or.inr (Or.inr (Or.inr (Or.inr (Or.inl rfl))))⟩
    · exact ⟨['m', d], r, by simpa using h,
        Or.inr (Or.inr (Or.inr (Or.inr (Or.inr ⟨d, rfl, hd⟩))))⟩
  · rintro ⟨tok, rest, h, htok⟩
    rcases htok with h1 | h1 | h1 | h1 | h1 | ⟨d, h1, hd⟩
    · left; left; left; left; left
      exact ⟨rest, by rw [h, h1]⟩
    · left; left; left; left; right
      exact ⟨rest, by rw [h, h1]⟩
    · left; left; left; right
      exact ⟨rest, by rw [h, h1]⟩
    · left; left; right
      exact ⟨rest, by rw [h, h1]⟩
    · left; right
      exact ⟨rest, by rw [h, h1]⟩
    · right
      refine ⟨d, rest, ?_, hd⟩
      rw [h, h1]
      simp

theorem scanUnstable_iff (cs : List Char) :
    MavenResolver.scanUnstable cs = true ↔ UnstableOccurSub cs := by
  induction cs with
  | nil =>
    simp only [MavenResolver.scanUnstable, UnstableOccurSub]
    constructor
    · intro h
      exact absurd h (by simp)
    · rintro ⟨pre, tok, post, h, htok⟩
      have h' := h.symm
      simp only [List.append_assoc, List.append_eq_nil] at h'
      exact absurd h'.2.1 (unstableTokSub_ne_nil htok)
  | cons c cs' ih =>
    simp only [MavenResolver.scanUnstable, Bool.or_eq_true, unstableAt_iff, ih,
      UnstableOccurSub]
    constructor
    · rintro (⟨tok, rest, h, htok⟩ | ⟨pre, tok, post, h, htok⟩)
      · exact ⟨[], tok, rest, by simpa using h, htok⟩
      · exact ⟨c :: pre, tok, post, by simp [h], htok⟩
    · rintro ⟨pre, tok, post, h, htok⟩
      cases pre with
      | nil => exact Or.inl ⟨tok, post, by simpa using h, htok⟩
      | cons c' pre' =>
        simp only [List.cons_append, List.cons.injEq] at h
        exact Or.inr ⟨pre', tok, post, h.2, htok⟩

theorem unstableOccur_spec_iff_sub (cs : List Char) :
    UnstableOccurSpec cs ↔ UnstableOccurSub cs := by
  constructor
  · rintro ⟨pre, tok, post, h, htok⟩
    rcases htok with h1 | h1 | h1 | h1 | h1 | ⟨ds, h1, hne, hdig⟩
    · exact ⟨pre, tok, post, h, Or.inl h1⟩
    · exact ⟨pre, tok, post, h, Or.inr (Or.inl h1)⟩
    · exact ⟨pre, tok, post, h, Or.inr (Or.inr (Or.inl h1))⟩
    · exact ⟨pre, tok, post, h, Or.inr (Or.inr (Or.inr (Or.inl h1)))⟩
    · exact ⟨pre, tok, post, h, Or.inr (Or.inr (Or.inr (Or.inr (Or.inl h1))))⟩
    · rcases ds with _ | ⟨d, ds'⟩
      · exact absurd rfl hne
      · simp only [List.all_cons, Bool.and_eq_true] at hdig
        refine ⟨pre, ['m', d], ds' ++ post, ?_,
          Or.inr (Or.inr (Or.inr (Or.inr (Or.inr ⟨d, rfl, hdig.1⟩))))⟩
        rw [h, h1]
        simp
  · rintro ⟨pre, tok, post, h, htok⟩
    rcases htok with h1 | h1 | h1 | h1 | h1 | ⟨d, h1, hd⟩
    · exact ⟨pre, tok, post, h, Or.inl h1⟩
    · exact ⟨pre, tok, post, h, Or.inr (Or.inl h1)⟩
    · exact ⟨pre, tok, post, h, Or.inr (Or.inr (Or.inl h1))⟩
    · exact ⟨pre, tok, post, h, Or.inr (Or.inr (Or.inr (Or.inl h1)))⟩
    · exact ⟨pre, tok, post, h, Or.inr (Or.inr (Or.inr (Or.inr (Or.inl h1))))⟩
    · refine ⟨pre, tok, post, h,
        Or.inr (Or.inr (Or.inr (Or.inr (Or.inr ⟨[d], by simpa using h1, by simp, ?_⟩))))⟩
      simp [hd]

/-- C4: isStableVersion returns false exactly when the version,
case-insensitively, matches one of the tokens preview, rc, alpha,
beta, snapshot, or a milestone m followed by digits (an unanchored
regex search, so a match anywhere in the string counts); the four
spec examples evaluate as stated.  The classification is a pure
function of the version string alone: it takes no cache or network
state. -/
theorem isStableVersion_spec :
    (∀ v : String, MavenResolver.isStableVersion v = false ↔
      UnstableOccurSpec (v.toList.map Char.toLower)) ∧
    MavenResolver.isStableVersion "6.2.8" = true ∧
    MavenResolver.isStableVersion "7.0.0-M1" = false ∧
    MavenResolver.isStableVersion "2.0.0-RC1" = false ∧
    MavenResolver.isStableVersion "1.6.0-SNAPSHOT" = false := by
  refine ⟨?_, by decide, by decide, by decide, by decide⟩
  intro v
  rw [unstableOccur_spec_iff_sub, ← scanUnstable_iff]
  simp [MavenResolver.isStableVersion]

/-- C10: the stability classification is substring containment, not
whole-component matching: isStableVersion v is false exactly when the
lower-cased v contains one of the five tokens, or the letter m
immediately followed by a digit, anywhere in the string; in
particular the milestone-free string 1.0.0-Force is classified
unstable because it contains rc. -/
theorem isStableVersion_substring :
    (∀ v : String, MavenResolver.isStableVersion v = false ↔
      UnstableOccurSub (v.toList.map Char.toLower)) ∧
    MavenResolver.isStableVersion "1.0.0-Force" = false := by
  refine ⟨?_, by decide⟩
  intro v
  rw [← scanUnstable_iff]
  simp [MavenResolver.isStableVersion]


theorem cmpLoop_cons_cons (a b : Nat) (as bs : List Nat) :
    MavenResolver.cmpLoop (a :: as) (b :: bs) =
      if a ≠ b then (a : Int) - b else MavenResolver.cmpLoop as bs := by
  rw [MavenResolver.cmpLoop]

theorem cmpLoop_cons_nil (a : Nat) (as : List Nat) :
    MavenResolver.cmpLoop (a :: as) [] =
      if a ≠ 0 then (a : Int) else MavenResolver.cmpLoop as [] := by
  rw [MavenResolver.cmpLoop]

theorem cmpLoop_nil_cons (b : Nat) (bs : List Nat) :
    MavenResolver.cmpLoop [] (b :: bs) =
      if b ≠ 0 then -(b : Int) else MavenResolver.cmpLoop [] bs := by
  show MavenResolver.cmpNilLoop (b :: bs) =
    if b ≠ 0 then -(b : Int) else MavenResolver.cmpNilLoop bs
  rw [MavenResolver.cmpNilLoop]

theorem cmpLoop_nil_neg (bs : List Nat) :
    MavenResolver.cmpLoop bs [] = -(MavenResolver.cmpLoop [] bs) := by
  induction bs with
  | nil => simp [MavenResolver.cmpLoop, MavenResolver.cmpNilLoop]
  | cons b bs ih =>
    rw [cmpLoop_cons_nil, cmpLoop_nil_cons]
    by_cases hb : b = 0
    · rw [if_neg (not_not_intro hb), if_neg (not_not_intro hb)]
      exact ih
    · rw [if_pos hb, if_pos hb]
      omega

theorem cmpLoop_neg (as : List Nat) : ∀ bs,
    MavenResolver.cmpLoop bs as = -(MavenResolver.cmpLoop as bs) := by
  induction as with
  | nil =>
    intro bs
    exact cmpLoop_nil_neg bs
  | cons a as ih =>
    intro bs
    cases bs with
    | nil =>
      have h := cmpLoop_nil_neg (a :: as)
      omega
    | cons b bs =>
      rw [cmpLoop_cons_cons, cmpLoop_cons_cons]
      by_cases hab : a = b
      · rw [if_neg (not_not_intro hab), if_neg (not_not_intro hab.symm)]
        exact ih bs
      · have hba : ¬ b = a := fun h => hab h.symm
        rw [if_pos hab, if_pos hba]
        omega

theorem cmpLoop_nil_le (bs : List Nat) : MavenResolver.cmpLoop [] bs ≤ 0 := by
  induction bs with
  | nil => simp [MavenResolver.cmpLoop, MavenResolver.cmpNilLoop]
  | cons b bs ih =>
    rw [cmpLoop_nil_cons]
    by_cases hb : b = 0
    · rw [if_neg (not_not_intro hb)]
      exact ih
    · rw [if_pos hb]
      omega

theorem cmpLoop_cons_nil_le {a : Nat} {as : List Nat}
    (h : MavenResolver.cmpLoop (a :: as) [] ≤ 0) :
    a = 0 ∧ MavenResolver.cmpLoop as [] ≤ 0 := by
  rw [cmpLoop_cons_nil] at h
  by_cases ha : a = 0
  · rw [if_neg (not_not_intro ha)] at h
    exact ⟨ha, h⟩
  · rw [if_pos ha] at h
    exfalso
    omega

theorem cmpLoop_self (as : List Nat) : MavenResolver.cmpLoop as as = 0 := by
  induction as with
  | nil => simp [MavenResolver.cmpLoop, MavenResolver.cmpNilLoop]
  | cons a as ih =>
    rw [cmpLoop_cons_cons, if_neg (not_not_intro rfl)]
    exact ih

theorem cmpLoop_trans : ∀ (as bs cs : List Nat),
    MavenResolver.cmpLoop as bs ≤ 0 → MavenResolver.cmpLoop bs cs ≤ 0 →
      MavenResolver.cmpLoop as cs ≤ 0 := by
  intro as
  induction as with
  | nil =>
    intro bs cs h1 h2
    exact cmpLoop_nil_le cs
  | cons a as ih =>
    intro bs cs h1 h2
    cases bs with
    | nil =>
      obtain ⟨ha, has⟩ := cmpLoop_cons_nil_le h1
      cases cs with
      | nil => exact h1
      | cons c cs' =>
        rw [cmpLoop_cons_cons]
        by_cases hac : a = c
        · rw [if_neg (not_not_intro hac)]
          have hcz : c = 0 := by omega
          have hnilcs : MavenResolver.cmpLoop [] cs' ≤ 0 := cmpLoop_nil_le cs'
          have h2' : MavenResolver.cmpLoop [] cs' ≤ 0 := hnilcs
          exact ih [] cs' has h2'
        · rw [if_pos hac]
          omega
    | cons b bs' =>
      cases cs with
      | nil =>
        obtain ⟨hb, hbs⟩ := cmpLoop_cons_nil_le h2
        subst hb
        rw [cmpLoop_cons_cons] at h1
        rw [cmpLoop_cons_nil]
        by_cases ha : a = 0
        · rw [if_neg (not_not_intro ha)]
          rw [if_neg (not_not_intro ha)] at h1
          exact ih bs' [] h1 hbs
        · rw [if_pos ha] at h1 ⊢
          exfalso
          omega
      | cons c cs' =>
        rw [cmpLoop_cons_cons] at h1 h2 ⊢
        by_cases hab : a = b <;> by_cases hbc : b = c
        · rw [if_neg (not_not_intro hab)] at h1
          rw [if_neg (not_not_intro hbc)] at h2
          rw [if_neg (not_not_intro (hab.trans hbc))]
          exact ih bs' cs' h1 h2
        · rw [if_neg (not_not_intro hab)] at h1
          rw [if_pos hbc] at h2
          subst hab
          rw [if_pos hbc]
          omega
        · rw [if_pos hab] at h1
          rw [if_neg (not_not_intro hbc)] at h2
          subst hbc
          rw [if_pos hab]
          omega
        · rw [if_pos hab] at h1
          rw [if_pos hbc] at h2
          by_cases hac : a = c
          · exfalso
            omega
          · rw [if_pos hac]
            omega

theorem compareVersions_neg (a b : String) :
    MavenResolver.compareVersions b a = -(MavenResolver.compareVersions a b) :=
  cmpLoop_neg (MavenResolver.parseVersion a) (MavenResolver.parseVersion b)

theorem compareVersions_self (a : String) : MavenResolver.compareVersions a a = 0 :=
  cmpLoop_self (MavenResolver.parseVersion a)

instance : IsTrans String MavenResolver.versionGE :=
  ⟨fun _ w _ h1 h2 => cmpLoop_trans _ (MavenResolver.parseVersion w) _ h2 h1⟩

instance : IsTotal String MavenResolver.versionGE := by
  refine ⟨fun v w => ?_⟩
  have h := compareVersions_neg v w
  unfold MavenResolver.versionGE
  omega

theorem versionGE_refl (v : String) : MavenResolver.versionGE v v := by
  unfold MavenResolver.versionGE
  rw [compareVersions_self]

/-- The head of the comparator-sorted list is a member of the input
and comparator-maximal among its members. -/
theorem insertionSort_headD_max (l : List String) (hne : l ≠ []) :
    (List.insertionSort MavenResolver.versionGE l).headD "" ∈ l ∧
      ∀ v ∈ l, MavenResolver.versionGE
        ((List.insertionSort MavenResolver.versionGE l).headD "") v := by
  have hperm := List.perm_insertionSort MavenResolver.versionGE l
  have hsorted := List.sorted_insertionSort MavenResolver.versionGE l
  rcases hs : List.insertionSort MavenResolver.versionGE l with _ | ⟨x, rest⟩
  · exfalso
    rw [hs] at hperm
    exact hne (List.Perm.nil_eq hperm).symm
  · rw [hs] at hperm hsorted
    constructor
    · exact hperm.mem_iff.mp (List.mem_cons_self x rest)
    · intro v hv
      have hv' : v ∈ x :: rest := hperm.mem_iff.mpr hv
      rcases List.mem_cons.mp hv' with h | h
      · rw [List.headD_cons, h]
        exact versionGE_refl x
      · rw [List.headD_cons]
        exact List.rel_of_sorted_cons hsorted v h

/-- C5 counterexample: compareVersions is not valued in -1, 0, 1 - at
the concrete pair 3.0 and 1.0 it returns the raw segment difference 2. -/
theorem compareVersions_not_sign_valued :
    MavenResolver.compareVersions "3.0" "1.0" = 2 ∧
      ¬ (MavenResolver.compareVersions "3.0" "1.0" = -1 ∨
         MavenResolver.compareVersions "3.0" "1.0" = 0 ∨
         MavenResolver.compareVersions "3.0" "1.0" = 1) := by
  constructor
  · decide
  · decide

/-- C5 amended: compareVersions returns an integer whose sign carries
the ordering (the raw difference of the first unequal segment pair,
not a value clamped to -1, 0, 1), computed by splitting on dots,
stripping non-digits per segment (a digitless segment parses as 0) and
comparing numerically with missing trailing segments treated as 0; it
is antisymmetric under negation, and the three spec examples hold. -/
theorem compareVersions_spec :
    (∀ a b : String, MavenResolver.compareVersions b a =
      -(MavenResolver.compareVersions a b)) ∧
    MavenResolver.compareVersions "2.10.1" "2.9.0" > 0 ∧
    MavenResolver.compareVersions "2.10.1" "2.10.0" > 0 ∧
    MavenResolver.compareVersions "1.8" "1.8.0" = 0 := by
  exact ⟨compareVersions_neg, by decide, by decide, by decide⟩

theorem cacheGet_eq (cache : CacheMap) (g a : String) (now : Nat) :
    CacheManager.get cache g a now =
      match cache (CacheManager.generateCacheKey g a) with
      | none => (none, cache)
      | some entry =>
        if CacheManager.isExpired entry now then
          (none, fun k => if k = CacheManager.generateCacheKey g a then none else cache k)
        else (some entry.data, cache) := rfl

theorem cacheSet_app (cache : CacheMap) (ttl : Nat) (g a : String)
    (data : VersionInfo) (now : Nat) (k : String) :
    CacheManager.set cache ttl g a data now k =
      if k = CacheManager.generateCacheKey g a then
        some { data := data, timestamp := now, expiresAt := now + ttl * 60 * 1000 }
      else cache k := rfl

/-- C1: a get never serves an expired entry, independent of the sweep:
if the stored entry for the coordinate satisfies now > expiresAt, get
reports a miss and deletes the entry; any record get does return comes
from an entry with now <= expiresAt; and running the periodic sweep
first never changes what get returns. -/
theorem cacheGet_never_expired (cache : CacheMap) (g a : String) (now : Nat) :
    (∀ entry : CacheEntry, cache (CacheManager.generateCacheKey g a) = some entry →
      now > entry.expiresAt →
      (CacheManager.get cache g a now).1 = none ∧
      (CacheManager.get cache g a now).2 (CacheManager.generateCacheKey g a) = none) ∧
    (∀ r : VersionInfo, (CacheManager.get cache g a now).1 = some r →
      ∃ entry : CacheEntry, cache (CacheManager.generateCacheKey g a) = some entry ∧
        ¬ now > entry.expiresAt ∧ r = entry.data) ∧
    (CacheManager.get (CacheManager.cleanupExpiredEntries cache now) g a now).1 =
      (CacheManager.get cache g a now).1 := by
  refine ⟨?_, ?_, ?_⟩
  · intro entry hentry hexp
    have hexp' : CacheManager.isExpired entry now = true := by
      simp [CacheManager.isExpired]
      omega
    rw [cacheGet_eq, hentry]
    simp [hexp']
  · intro r hr
    rw [cacheGet_eq] at hr
    rcases hck : cache (CacheManager.generateCacheKey g a) with _ | entry
    · rw [hck] at hr
      simp at hr
    · rw [hck] at hr
      by_cases hexp : CacheManager.isExpired entry now = true
      · simp [hexp] at hr
      · simp [hexp] at hr
        refine ⟨entry, rfl, ?_, hr.symm⟩
        intro hgt
        apply hexp
        simp [CacheManager.isExpired]
        omega
  · rw [cacheGet_eq, cacheGet_eq]
    have hclean : CacheManager.cleanupExpiredEntries cache now
        (CacheManager.generateCacheKey g a) =
        match cache (CacheManager.generateCacheKey g a) with
        | some entry => if now > entry.expiresAt then none else some entry
        | none => none := rfl
    rw [hclean]
    rcases hck : cache (CacheManager.generateCacheKey g a) with _ | entry
    · rfl
    · by_cases hexp : now > entry.expiresAt
      · have hexp' : CacheManager.isExpired entry now = true := by
          simp [CacheManager.isExpired]
          omega
        simp [hexp, hexp']
      · have hexp' : CacheManager.isExpired entry now = false := by
          simp [CacheManager.isExpired]
          omega
        simp [hexp, hexp']

/-- C1 witness: on a concrete cache holding an entry expired at
instant 10, get at instant 10 misses and removes the entry. -/
theorem cacheGet_never_expired_witness :
    (CacheManager.get
      (fun k => if k = "g:a" then
        some { data := { latestVersion := "1.0.0", lastUpdated := "u",
                         repository := "Maven Central" },
               timestamp := 0, expiresAt := 5 }
        else none) "g" "a" 10).1 = none ∧
    (CacheManager.get
      (fun k => if k = "g:a" then
        some { data := { latestVersion := "1.0.0", lastUpdated := "u",
                         repository := "Maven Central" },
               timestamp := 0, expiresAt := 5 }
        else none) "g" "a" 10).2 "g:a" = none := by
  exact (cacheGet_never_expired _ "g" "a" 10).1
    { data := { latestVersion := "1.0.0", lastUpdated := "u",
                repository := "Maven Central" },
      timestamp := 0, expiresAt := 5 } (by rfl) (by decide)

/-- C8 counterexample: with TTL 0, a get at exactly the set timestamp
still returns the record - expiry is strict (now > expiresAt), so the
entry is not yet stale at the same millisecond, contrary to the claim
that such a get reports a miss. -/
theorem cacheTtlZero_same_instant_hit :
    (CacheManager.get
      (CacheManager.set emptyCacheMap 0 "g" "a"
        { latestVersion := "1.0.0", lastUpdated := "u", repository := "Maven Central" }
        1000)
      "g" "a" 1000).1 =
      some { latestVersion := "1.0.0", lastUpdated := "u", repository := "Maven Central" } := by
  rfl

/-- C8 amended: with TTL 0 an entry is stale at every instant strictly
after its set: for any cache state, coordinate and record, a get at
any time t2 > t1 after a set at t1 reports a miss (at exactly t1 the
entry is still served, since expiry requires now > expiresAt). -/
theorem cacheTtlZero_stale_after (cache : CacheMap) (g a : String)
    (data : VersionInfo) (t1 t2 : Nat) (h : t1 < t2) :
    (CacheManager.get (CacheManager.set cache 0 g a data t1) g a t2).1 = none := by
  rw [cacheGet_eq, cacheSet_app, if_pos rfl]
  have hexp : CacheManager.isExpired
      { data := data, timestamp := t1, expiresAt := t1 } t2 = true := by
    simp [CacheManager.isExpired]
    omega
  simp [hexp]

/-- C8 amended witness: a concrete set at 1000 with TTL 0 followed by
a get at 1001 misses. -/
theorem cacheTtlZero_stale_after_witness :
    (CacheManager.get
      (CacheManager.set emptyCacheMap 0 "g" "a"
        { latestVersion := "1.0.0", lastUpdated := "u", repository := "Maven Central" }
        1000)
      "g" "a" 1001).1 = none :=
  cacheTtlZero_stale_after emptyCacheMap "g" "a"
    { latestVersion := "1.0.0", lastUpdated := "u", repository := "Maven Central" }
    1000 1001 (by decide)

theorem validateInput_invalid (g a : String)
    (h : g = "" ∨ ¬ g.toList.all MavenResolver.validCoordChar = true ∨
         a = "" ∨ ¬ a.toList.all MavenResolver.validCoordChar = true) :
    ∃ e, MavenResolver.validateInput g a = .error e := by
  unfold MavenResolver.validateInput
  by_cases h1 : g = "" ∨ jsTrim g = ""
  · rw [if_pos h1]
    exact ⟨_, rfl⟩
  · rw [if_neg h1]
    by_cases h2 : a = "" ∨ jsTrim a = ""
    · rw [if_pos h2]
      exact ⟨_, rfl⟩
    · rw [if_neg h2]
      by_cases h3 : g.toList ≠ [] ∧ g.toList.all MavenResolver.validCoordChar = true
      · rw [if_neg (not_not_intro h3)]
        by_cases h4 : a.toList ≠ [] ∧ a.toList.all MavenResolver.validCoordChar = true
        · rw [if_neg (not_not_intro h4)]
          exfalso
          rcases h with hh | hh | hh | hh
          · exact (not_or.mp h1).1 hh
          · exact hh h3.2
          · exact (not_or.mp h2).1 hh
          · exact hh h4.2
        · rw [if_pos h4]
          exact ⟨_, rfl⟩
      · rw [if_pos h3]
        exact ⟨_, rfl⟩

/-- C7: for every input pair in which either component is empty or
contains a character outside the class of letters, digits, dot,
underscore and hyphen, getLatestVersion fails with the validation
error before touching any collaborator: the result is exactly the
validation error, the cache map is unchanged, and the trace records
no cache access and no primary or history request.  (The non-string
case of the claim has no counterpart in the typed embedding, where
both components are strings by construction.) -/
theorem validation_before_effects (g a : String) (cache : CacheMap)
    (ttl now : Nat) (primary : Except JsError MavenData)
    (history : Except JsError GavData)
    (h : g = "" ∨ ¬ g.toList.all MavenResolver.validCoordChar = true ∨
         a = "" ∨ ¬ a.toList.all MavenResolver.validCoordChar = true) :
    ∃ e, MavenResolver.validateInput g a = .error e ∧
      (MavenResolver.getLatestVersion g a cache ttl now primary history).result = .error e ∧
      (MavenResolver.getLatestVersion g a cache ttl now primary history).cacheAfter = cache ∧
      (MavenResolver.getLatestVersion g a cache ttl now primary history).cacheRead = false ∧
      (MavenResolver.getLatestVersion g a cache ttl now primary history).primaryIssued = false ∧
      (MavenResolver.getLatestVersion g a cache ttl now primary history).historyIssued = false := by
  obtain ⟨e, he⟩ := validateInput_invalid g a h
  refine ⟨e, he, ?_⟩
  unfold MavenResolver.getLatestVersion
  rw [he]
  exact ⟨rfl, rfl, rfl, rfl, rfl⟩

/-- C7 witness: the concrete pair with a space in the group id is
rejected with no effect on a concrete cache and no request issued. -/
theorem validation_before_effects_witness :
    ∃ e, MavenResolver.validateInput "bad id" "a" = .error e ∧
      (MavenResolver.getLatestVersion "bad id" "a" emptyCacheMap 5 0
        primaryStable historyB).result = .error e ∧
      (MavenResolver.getLatestVersion "bad id" "a" emptyCacheMap 5 0
        primaryStable historyB).cacheAfter = emptyCacheMap ∧
      (MavenResolver.getLatestVersion "bad id" "a" emptyCacheMap 5 0
        primaryStable historyB).cacheRead = false ∧
      (MavenResolver.getLatestVersion "bad id" "a" emptyCacheMap 5 0
        primaryStable historyB).primaryIssued = false ∧
      (MavenResolver.getLatestVersion "bad id" "a" emptyCacheMap 5 0
        primaryStable historyB).historyIssued = false :=
  validation_before_effects "bad id" "a" emptyCacheMap 5 0 primaryStable historyB
    (Or.inr (Or.inl (by decide)))

/-- C9: on a cache miss whose primary response carries a stable
nominal latest version, getLatestVersion returns that version with
cached false and no excludedVersions (and no totalVersions), and the
version-history query is never issued. -/
theorem stable_latest_no_history (g a : String) (cache : CacheMap) (ttl now : Nat)
    (doc : MavenDoc) (rest : List MavenDoc) (lv : String)
    (history : Except JsError GavData)
    (hval : MavenResolver.validateInput g a = .ok ())
    (hmiss : (CacheManager.get cache g a now).1 = none)
    (hlv : doc.latestVersion = some lv) (hne : lv ≠ "")
    (hstable : MavenResolver.isStableVersion lv = true) :
    (MavenResolver.getLatestVersion g a cache ttl now
        (.ok { response := some { docs := some (doc :: rest) } }) history).result =
      .ok { latestVersion := lv, lastUpdated := jsToISOString doc.timestamp,
            repository := "Maven Central", cached := false,
            excludedVersions := none, totalVersions := none } ∧
    (MavenResolver.getLatestVersion g a cache ttl now
        (.ok { response := some { docs := some (doc :: rest) } }) history).historyIssued
      = false := by
  have hq : MavenResolver.queryMavenApi g a
      (.ok { response := some { docs := some (doc :: rest) } }) history =
      (.ok { latestVersion := lv, lastUpdated := jsToISOString doc.timestamp,
             repository := "Maven Central" }, false) := by
    simp only [MavenResolver.queryMavenApi, MavenResolver.queryBody, hlv]
    simp [hne, hstable]
  unfold MavenResolver.getLatestVersion
  rw [hval]
  rcases hg : CacheManager.get cache g a now with ⟨r, cache1⟩
  rw [hg] at hmiss
  simp only at hmiss
  subst hmiss
  rw [hq]
  exact ⟨rfl, rfl⟩

/-- C9 witness: the concrete scenario A - primary response 6.0.0 at
timestamp 1699267845000 on an empty cache resolves to 6.0.0, cached
false, no exclusions, and no history query. -/
theorem stable_latest_no_history_witness :
    (MavenResolver.getLatestVersion "g" "a" emptyCacheMap 5 0
        primaryStable historyB).result =
      .ok { latestVersion := "6.0.0", lastUpdated := jsToISOString 1699267845000,
            repository := "Maven Central", cached := false,
            excludedVersions := none, totalVersions := none } ∧
    (MavenResolver.getLatestVersion "g" "a" emptyCacheMap 5 0
        primaryStable historyB).historyIssued = false :=
  stable_latest_no_history "g" "a" emptyCacheMap 5 0
    { latestVersion := some "6.0.0", timestamp := 1699267845000 } [] "6.0.0" historyB
    (by rfl) (by rfl) (by rfl) (by decide) (by decide)

/-- C3 counterexample: with an unstable nominal latest version
(2.0.0-RC1) and a failing version-history query, the resolution does
not complete - it raises the no-stable-versions error, contrary to
the claim that the resolution still completes. -/
theorem history_failure_still_errors :
    (MavenResolver.queryMavenApi "g" "a" primaryRC historyFail).1 =
      .error (plainJsError
        "No stable versions found for g:a (latest version 2.0.0-RC1 is pre-release)") := by
  rfl

/-- C3 amended: the failure of the secondary version-history query is
itself never propagated: the version list is treated as empty exactly
as for an empty successful response, and the resolution then proceeds
- which, with an unstable nominal latest and hence an empty stable
subset, ends in the NoStableVersionError naming the nominal version,
independent of the transport error e. -/
theorem history_failure_degrades (g a lv : String) (doc : MavenDoc)
    (rest : List MavenDoc) (e : JsError)
    (hdoc : doc.latestVersion = some lv)
    (hunstable : MavenResolver.isStableVersion lv = false) (hne : lv ≠ "") :
    MavenResolver.getAllVersions (.error e) = [] ∧
    MavenResolver.queryMavenApi g a
        (.ok { response := some { docs := some (doc :: rest) } }) (.error e) =
      (.error (plainJsError ("No stable versions found for " ++ g ++ ":" ++ a ++
        " (latest version " ++ lv ++ " is pre-release)")), true) := by
  refine ⟨rfl, ?_⟩
  simp only [MavenResolver.queryMavenApi, MavenResolver.queryBody, hdoc]
  simp [hne, hunstable, MavenResolver.getAllVersions, MavenResolver.catchTranslate,
    plainJsError]

/-- C3 amended witness: the concrete scenario - 2.0.0-RC1 with a
connection-reset history failure ends in the no-stable-versions
error with the history query having been issued. -/
theorem history_failure_degrades_witness :
    MavenResolver.getAllVersions historyFail = [] ∧
    MavenResolver.queryMavenApi "g" "a" primaryRC historyFail =
      (.error (plainJsError
        "No stable versions found for g:a (latest version 2.0.0-RC1 is pre-release)"),
       true) :=
  history_failure_degrades "g" "a" "2.0.0-RC1"
    { latestVersion := some "2.0.0-RC1", timestamp := 1699267845000 } []
    { code := some "ECONNRESET", asString := "Error: socket hang up" }
    (by rfl) (by decide) (by decide)

theorem jsSetDedupGo_mem {x : String} : ∀ (seen l : List String),
    x ∈ MavenResolver.jsSetDedupGo seen l → x ∈ l := by
  intro seen l
  induction l generalizing seen with
  | nil => simp [MavenResolver.jsSetDedupGo]
  | cons y ys ih =>
    simp only [MavenResolver.jsSetDedupGo]
    by_cases hy : y ∈ seen
    · rw [if_pos hy]
      intro h
      exact List.mem_cons_of_mem y (ih seen h)
    · rw [if_neg hy]
      intro h
      rcases List.mem_cons.mp h with h | h
      · exact h ▸ List.mem_cons_self y ys
      · exact List.mem_cons_of_mem y (ih (y :: seen) h)

theorem jsSetDedupGo_not_seen {x : String} : ∀ (seen l : List String),
    x ∈ MavenResolver.jsSetDedupGo seen l → x ∉ seen := by
  intro seen l
  induction l generalizing seen with
  | nil => simp [MavenResolver.jsSetDedupGo]
  | cons y ys ih =>
    simp only [MavenResolver.jsSetDedupGo]
    by_cases hy : y ∈ seen
    · rw [if_pos hy]
      exact ih seen
    · rw [if_neg hy]
      intro h hseen
      rcases List.mem_cons.mp h with h | h
      · exact hy (h ▸ hseen)
      · exact ih (y :: seen) h (List.mem_cons_of_mem y hseen)

theorem jsSetDedupGo_nodup : ∀ (seen l : List String),
    (MavenResolver.jsSetDedupGo seen l).Nodup := by
  intro seen l
  induction l generalizing seen with
  | nil => simp [MavenResolver.jsSetDedupGo]
  | cons y ys ih =>
    simp only [MavenResolver.jsSetDedupGo]
    by_cases hy : y ∈ seen
    · rw [if_pos hy]
      exact ih seen
    · rw [if_neg hy]
      refine List.nodup_cons.mpr ⟨?_, ih (y :: seen)⟩
      intro hmem
      exact jsSetDedupGo_not_seen (y :: seen) ys hmem (List.mem_cons_self y seen)

/-- Inversion of a successful resolution that went through the
pre-release path (history flag true): the answer is a stable member of
the retrieved version list, maximal under the comparator, and the
excluded list is de-duplicated, capped at 10, and all-unstable. -/
theorem queryMavenApi_unstable_inv (g a : String)
    (primary : Except JsError MavenData) (history : Except JsError GavData)
    (vi : VersionInfo)
    (h : MavenResolver.queryMavenApi g a primary history = (.ok vi, true)) :
    vi.latestVersion ∈ (MavenResolver.getAllVersions history).filter
        (fun v => MavenResolver.isStableVersion v) ∧
    (∀ v ∈ MavenResolver.getAllVersions history,
      MavenResolver.isStableVersion v = true →
        MavenResolver.versionGE vi.latestVersion v) ∧
    (∃ l, vi.excludedVersions = some l ∧ l.length ≤ 10 ∧ l.Nodup ∧
      ∀ x ∈ l, MavenResolver.isStableVersion x = false) := by
  rcases hb : MavenResolver.queryBody g a primary history with ⟨r, flag⟩
  unfold MavenResolver.queryMavenApi at h
  rw [hb] at h
  cases r with
  | error e => simp at h
  | ok vi' =>
    simp only [Prod.mk.injEq, Except.ok.injEq] at h
    obtain ⟨hvi, hflag⟩ := h
    subst hvi
    subst hflag
    unfold MavenResolver.queryBody at hb
    split at hb
    · exact absurd hb (by simp)
    · split at hb
      · exact absurd hb (by simp)
      · split at hb
        · exact absurd hb (by simp)
        · split at hb
          · exact absurd hb (by simp)
          · split at hb
            · exact absurd hb (by simp)
            · split at hb
              · exact absurd hb (by simp)
              · split at hb
                · exact absurd hb (by simp)
                · dsimp only [] at hb
                  split at hb
                  · exact absurd hb (by simp)
                  · rename_i lv hlv hlvne hnotstable hstablene
                    simp only [Prod.mk.injEq, Except.ok.injEq] at hb
                    obtain ⟨hvi, -⟩ := hb
                    subst hvi
                    have hne : (MavenResolver.getAllVersions history).filter
                        (fun v => MavenResolver.isStableVersion v) ≠ [] := by
                      intro h0
                      apply hstablene
                      rw [h0]
                      rfl
                    have hmax := insertionSort_headD_max
                      ((MavenResolver.getAllVersions history).filter
                        (fun v => MavenResolver.isStableVersion v)) hne
                    refine ⟨hmax.1, ?_, ?_⟩
                    · intro v hv hvs
                      exact hmax.2 v (List.mem_filter.mpr ⟨hv, hvs⟩)
                    · refine ⟨_, rfl, ?_, ?_, ?_⟩
                      · rw [List.length_take]
                        exact Nat.min_le_left _ _
                      · exact List.Nodup.sublist (List.take_sublist _ _)
                          (jsSetDedupGo_nodup [] _)
                      · intro x hx
                        have hx1 : x ∈ MavenResolver.jsSetDedup
                            (lv :: (MavenResolver.getAllVersions history).filter
                              (fun v => !(MavenResolver.isStableVersion v))) :=
                          List.take_subset 10 _ hx
                        have hx2 := jsSetDedupGo_mem [] _ hx1
                        rcases List.mem_cons.mp hx2 with h | h
                        · subst h
                          cases hxs : MavenResolver.isStableVersion x
                          · rfl
                          · exact absurd hxs hnotstable
                        · have := (List.mem_filter.mp h).2
                          simpa using this

/-- C2: when the nominal latest version is unstable, the resolution
returns the comparator-greatest stable version of the history list,
with excludedVersions de-duplicated (first occurrence, discovery
order), capped at 10, and totalVersions equal to the number of
excluded versions recorded (nominal plus unstable history entries,
before de-duplication) plus 1.  Concretely, scenario B: primary
2.0.0-RC1, history [2.0.0-RC1, 1.9.0, 1.8.0-beta1, 1.7.0] resolves to
1.9.0 with excludedVersions [2.0.0-RC1, 1.8.0-beta1] and
totalVersions 4; in general every successful pre-release-path
resolution answers with a stable member of the history list maximal
under compareVersions, and its excluded list is de-duplicated, at
most 10 long, and all-unstable. -/
theorem unstable_latest_resolution :
    ((MavenResolver.getLatestVersion "g" "a" emptyCacheMap 5 0
        primaryRC historyB).result =
      .ok { latestVersion := "1.9.0", lastUpdated := jsToISOString 1699267845000,
            repository := "Maven Central", cached := false,
            excludedVersions := some ["2.0.0-RC1", "1.8.0-beta1"],
            totalVersions := some 4 }) ∧
    ∀ (g a : String) (primary : Except JsError MavenData)
      (history : Except JsError GavData) (vi : VersionInfo),
      MavenResolver.queryMavenApi g a primary history = (.ok vi, true) →
        vi.latestVersion ∈ (MavenResolver.getAllVersions history).filter
            (fun v => MavenResolver.isStableVersion v) ∧
        (∀ v ∈ MavenResolver.getAllVersions history,
          MavenResolver.isStableVersion v = true →
            MavenResolver.versionGE vi.latestVersion v) ∧
        (∃ l, vi.excludedVersions = some l ∧ l.length ≤ 10 ∧ l.Nodup ∧
          ∀ x ∈ l, MavenResolver.isStableVersion x = false) := by
  constructor
  · rfl
  · intro g a primary history vi h
    exact queryMavenApi_unstable_inv g a primary history vi h

/-- C2 witness: instantiating the general part at scenario B - 1.9.0
is a stable member of the retrieved list and is comparator-greater
than the other stable member 1.7.0. -/
theorem unstable_latest_resolution_witness :
    "1.9.0" ∈ (MavenResolver.getAllVersions historyB).filter
      (fun v => MavenResolver.isStableVersion v) ∧
    MavenResolver.versionGE "1.9.0" "1.7.0" := by
  have h := unstable_latest_resolution.2 "g" "a" primaryRC historyB
    { latestVersion := "1.9.0", lastUpdated := jsToISOString 1699267845000,
      repository := "Maven Central",
      excludedVersions := some ["2.0.0-RC1", "1.8.0-beta1"], totalVersions := some 4 }
    (by rfl)
  exact ⟨h.1, h.2.1 "1.7.0" (by decide) (by decide)⟩

/-- Every branch of the error classifier embeds the target URL in the
message. -/
theorem createHttpError_names_url (e : JsError) (url method : String) :
    ∃ pre post, (HttpClient.createHttpError e url method).data =
      pre ++ url.data ++ post := by
  unfold HttpClient.createHttpError
  split_ifs
  · exact ⟨("Connection timeout for " ++ method ++ " ").data, [],
      by simp [String.data_append]⟩
  · exact ⟨("Headers timeout for " ++ method ++ " ").data, [],
      by simp [String.data_append]⟩
  · exact ⟨("Body timeout for " ++ method ++ " ").data, [],
      by simp [String.data_append]⟩
  · exact ⟨("DNS resolution failed for ").data, [], by simp [String.data_append]⟩
  · exact ⟨("Connection refused for ").data, [], by simp [String.data_append]⟩
  · exact ⟨("Connection reset for ").data, [], by simp [String.data_append]⟩
  · split
    · rename_i sc heq
      split_ifs
      · exact ⟨("HTTP " ++ toString sc ++ " for " ++ method ++ " ").data,
          (": " ++ HttpClient.jsMessageOr e "Unknown error").data,
          by simp [String.data_append]⟩
      · exact ⟨("HTTP request failed for " ++ method ++ " ").data,
          (": " ++ HttpClient.jsMessageOr e e.asString).data,
          by simp [String.data_append]⟩
    · exact ⟨("HTTP request failed for " ++ method ++ " ").data,
        (": " ++ HttpClient.jsMessageOr e e.asString).data,
        by simp [String.data_append]⟩

/-- C6 counterexample: a request whose every attempt fails with a DNS
error surfaces the message DNS resolution failed for http://x, which
names the URL but does not contain the method GET anywhere - the
final classified error does not always name the method. -/
theorem http_error_omits_method :
    (HttpClient.request dnsOutcomes "http://x" "GET").result =
      .error "DNS resolution failed for http://x" ∧
    containsSeq "GET".toList ("DNS resolution failed for http://x").toList = false := by
  exact ⟨rfl, by decide⟩

/-- C6 amended: a request whose three attempts all fail performs
exactly 3 attempts with backoff delays 1000 then 2000 milliseconds
(min(1000 * 2 ^ (attempt - 1), 5000)), and fails with only the final
classified error; that error always names the target URL, but the
method appears only in the timeout, HTTP-status and generic
classifications and is omitted by the DNS-failure,
connection-refused and connection-reset messages. -/
theorem http_retry_exhausts {α : Type} (outcomes : Nat → Except JsError α)
    (url method : String) (e0 e1 e2 : JsError)
    (h0 : outcomes 0 = .error e0) (h1 : outcomes 1 = .error e1)
    (h2 : outcomes 2 = .error e2) :
    (HttpClient.request outcomes url method).attempts = 3 ∧
    (HttpClient.request outcomes url method).delays = [1000, 2000] ∧
    (HttpClient.request outcomes url method).result =
      .error (HttpClient.createHttpError e2 url method) ∧
    ∃ pre post, (HttpClient.createHttpError e2 url method).data =
      pre ++ url.data ++ post := by
  have hreq : HttpClient.request outcomes url method =
      { result := .error (HttpClient.createHttpError e2 url method),
        delays := [1000, 2000], attempts := 3 } := by
    simp [HttpClient.request, HttpClient.requestGo, HttpClient.maxRetries,
      HttpClient.backoffDelay, h0, h1, h2]
  rw [hreq]
  exact ⟨rfl, rfl, rfl, createHttpError_names_url e2 url method⟩

/-- C6 amended witness: the DNS-failure oracle performs 3 attempts,
sleeps 1000 then 2000 milliseconds, and surfaces the classified DNS
message, in which the URL occurs. -/
theorem http_retry_exhausts_witness :
    (HttpClient.request dnsOutcomes "http://x" "GET").attempts = 3 ∧
    (HttpClient.request dnsOutcomes "http://x" "GET").delays = [1000, 2000] ∧
    (HttpClient.request dnsOutcomes "http://x" "GET").result =
      .error (HttpClient.createHttpError dnsError "http://x" "GET") ∧
    ∃ pre post, (HttpClient.createHttpError dnsError "http://x" "GET").data =
      pre ++ "http://x".data ++ post :=
  http_retry_exhausts dnsOutcomes "http://x" "GET" dnsError dnsError dnsError
    rfl rfl rfl
